import Mathlib

/-!
Verification of the `FieldContainer` core of `astrodask` (file
`src/astrodask/fields.py`), modelled as a shallow embedding.

Modelling conventions:
* Python `dict`s (insertion-ordered, unique keys) are association lists
  `List (String × α)`; `dset` replaces in place when the key exists and
  appends otherwise, matching `d[k] = v`; `dupdate` is `d.update(**other)`;
  `ddel` is `del d[k]`.
* Arrays (`dask.array` values) are one-dimensional integer vectors
  `List Int`; their first-dimension length `shape[0]` is `List.length`.
* Recipe generator functions are deep-embedded as `Gen`: the generator
  families needed by the spec's scenarios (return a constant array; return
  `self[key] * c`; raise `KeyError`; raise a non-`KeyError` exception).
  The modelled generators take no optional keyword parameters, so the
  keyword-merging block of `_getitem` (which intersects the container's
  `fieldrecipes_kwargs` with the function's keyword defaults) resolves to
  the empty keyword set and is not represented.
* Python exceptions are the `Err` type; `raise` is `Except.error`.
  Mutation of `self` is explicit state passing: functions return the
  updated container.
* Recipe evaluation can recurse through `__getitem__` (a generator may
  look up further fields), which in Python may diverge; evaluation
  therefore takes fuel, with a distinguished `Err.fuelOut` that no source
  exception maps to.  Running out of fuel never happens in the theorems
  below: they either supply ample fuel or hold for every fuel bound.
-/

namespace Astrodask

/-- Python exceptions relevant to `fields.py`. -/
inductive Err where
  | keyError (msg : String)
  | valueError (msg : String)
  | typeError (msg : String)
  | stopIteration
  | fuelOut
  deriving DecidableEq, Repr

/-- First-match lookup in an association list, i.e. `d[k]` / `d.get(k)`. -/
def dlookup : List (String × α) → String → Option α
  | [], _ => none
  | p :: d, k => if p.1 == k then some p.2 else dlookup d k

/-- Membership test `k in d`. -/
def dmem (d : List (String × α)) (k : String) : Bool :=
  (dlookup d k).isSome

/-- Assignment `d[k] = v`: replace the entry in place if the key is
present, else append the new entry at the end. -/
def dset : List (String × α) → String → α → List (String × α)
  | [], k, v => [(k, v)]
  | p :: d, k, v => if p.1 == k then (k, v) :: d else p :: dset d k v

/-- `d.update(**other)`: assign every entry of `other` in order. -/
def dupdate (d other : List (String × α)) : List (String × α) :=
  other.foldl (fun acc p => dset acc p.1 p.2) d

/-- `del d[k]`. -/
def ddel (d : List (String × α)) (k : String) : List (String × α) :=
  d.filter (fun p => p.1 ≠ k)

/-- The keys of an association list. -/
def dkeys (d : List (String × α)) : List String :=
  d.map Prod.fst

/-- Deep-embedded recipe generator functions (`DerivedFieldRecipe.func`).
`constG a` is `lambda self: a`; `scaleG k c` is `lambda self: self[k] * c`
(the lookup goes through `__getitem__`, hence may itself derive and cache);
`raiseKeyG`/`raiseValG` are generators that raise. -/
inductive Gen where
  | constG (a : List Int)
  | scaleG (key : String) (c : Int)
  | raiseKeyG (msg : String)
  | raiseValG (msg : String)
  deriving DecidableEq, Repr

/-- `FieldContainer`: aliases, materialized fields, pending recipes
(`fieldrecipes`, holding just the generator of each `DerivedFieldRecipe`),
and named child containers.  The `fieldrecipes_kwargs`, `name` and
`internals` attributes play no role in the claims below and are omitted. -/
inductive FC where
  | mk (aliases : List (String × String))
       (fields : List (String × List Int))
       (fieldrecipes : List (String × Gen))
       (containers : List (String × FC))

/-- `self.aliases`. -/
def FC.aliases : FC → List (String × String)
  | .mk a _ _ _ => a

/-- `self.fields`. -/
def FC.fields : FC → List (String × List Int)
  | .mk _ f _ _ => f

/-- `self.fieldrecipes`. -/
def FC.fieldrecipes : FC → List (String × Gen)
  | .mk _ _ r _ => r

/-- `self.containers`. -/
def FC.containers : FC → List (String × FC)
  | .mk _ _ _ cs => cs

/-- Replace the `fields` attribute. -/
def FC.setFields : FC → List (String × List Int) → FC
  | .mk a _ r cs, f => .mk a f r cs

/-- Replace the `fieldrecipes` attribute. -/
def FC.setRecipes : FC → List (String × Gen) → FC
  | .mk a f _ cs, r => .mk a f r cs

/-- Replace the `aliases` attribute. -/
def FC.setAliases : FC → List (String × String) → FC
  | .mk _ f r cs, a => .mk a f r cs

/-- Replace the `containers` attribute. -/
def FC.setContainers : FC → List (String × FC) → FC
  | .mk a f r _, cs => .mk a f r cs

/-- `FieldContainer()` with no arguments: everything empty. -/
def emptyFC : FC := .mk [] [] [] []

/-- The two kinds of Python values a container read can produce and a
container write can consume: an array, or a `FieldContainer`. -/
inductive PyVal where
  | arr (a : List Int)
  | cont (c : FC)

/-- `FieldContainer._getitem(key, force_derived, update_dict)` (fields.py
lines 289–326), with explicit fuel and explicit state passing: the result
pairs the returned value with the (possibly mutated) container.  Order of
the source: one-hop alias substitution, then `containers`, then `fields`
(unless `force_derived`), then the recipe branch, else `KeyError`.  The
generator call `func(self, **kwargs)` of line 321 is the inner match on
the recipe: `scaleG` reads through `__getitem__`, i.e. a recursive
`getitemCore` with `force_derived=False, update_dict=True`, and
multiplying a sub-container is a `TypeError`. -/
def FC.getitemCore : Nat → FC → String → Bool → Bool → Except Err (PyVal × FC)
  | 0, _, _, _, _ => .error .fuelOut
  | n + 1, c, key0, force, upd =>
    let key := (dlookup c.aliases key0).getD key0
    match dlookup c.containers key with
    | some sub => .ok (.cont sub, c)
    | none =>
      match dlookup c.fields key, force with
      | some a, false => .ok (.arr a, c)
      | _, _ =>
        match dlookup c.fieldrecipes key with
        | some recipe =>
          let r : Except Err (List Int × FC) :=
            match recipe with
            | .constG a => .ok (a, c)
            | .scaleG k2 m =>
              (match FC.getitemCore n c k2 false true with
               | .ok (.arr a, c2) => .ok (a.map (fun x => x * m), c2)
               | .ok (.cont _, _) => .error (.typeError "unsupported operand type")
               | .error e => .error e)
            | .raiseKeyG msg => .error (.keyError msg)
            | .raiseValG msg => .error (.valueError msg)
          match r with
          | .error e => .error e
          | .ok (field, c2) =>
            if upd then .ok (.arr field, c2.setFields (dset c2.fields key field))
            else .ok (.arr field, c2)
        | none => .error (.keyError ("Unknown field " ++ key))

/-- Evaluation of a generator function `func(self)` by itself (the call on
fields.py line 321), at fuel `n`: the same inner match as in the recipe
branch of `getitemCore (n+1)`. -/
def FC.evalGen (n : Nat) (c : FC) : Gen → Except Err (List Int × FC)
  | .constG a => .ok (a, c)
  | .scaleG k2 m =>
    (match FC.getitemCore n c k2 false true with
     | .ok (.arr a, c2) => .ok (a.map (fun x => x * m), c2)
     | .ok (.cont _, _) => .error (.typeError "unsupported operand type")
     | .error e => .error e)
  | .raiseKeyG msg => .error (.keyError msg)
  | .raiseValG msg => .error (.valueError msg)

/-- Lines 322–324 of `_getitem`: what is done with a generator's outcome —
an exception propagates; a produced array is returned and, when
`update_dict` is set, also cached into `fields` under the resolved key. -/
def deriveFinish (r : Except Err (List Int × FC)) (key : String) (upd : Bool) :
    Except Err (PyVal × FC) :=
  match r with
  | .error e => .error e
  | .ok (a, c2) =>
    if upd then .ok (.arr a, c2.setFields (dset c2.fields key a))
    else .ok (.arr a, c2)

/-- `container[key]`, i.e. `__getitem__` = `_getitem(key)` with the
defaults `force_derived=False, update_dict=True`. -/
def FC.getitem (n : Nat) (c : FC) (key : String) : Except Err (PyVal × FC) :=
  FC.getitemCore n c key false true

/-- `FieldContainer.get(key, value, allow_derived, force_derived)`
(fields.py lines 336–345): reject recipe-backed keys when
`allow_derived=False`; otherwise run `_getitem` with `update_dict=False`
and turn a `KeyError` into the default `value`.  `default = none` models
the Python default `value=None`. -/
def FC.get (n : Nat) (c : FC) (key : String) (default : Option PyVal)
    (allow_derived force_derived : Bool) : Except Err (Option PyVal × FC) :=
  if dmem c.fieldrecipes key && !allow_derived then
    .error (.keyError ("Field " ++ key ++ " is derived (allow_derived=False)"))
  else
    match FC.getitemCore n c key force_derived false with
    | .ok (r, c2) => .ok (some r, c2)
    | .error (.keyError _) => .ok (default, c)
    | .error e => .error e

/-- `FieldContainer.__setitem__` (fields.py lines 234–238): a
`FieldContainer` value is routed to `containers`, anything else to
`fields`.  Neither branch touches the other bucket. -/
def FC.setitem (c : FC) (key : String) (v : PyVal) : FC :=
  match v with
  | .cont sub => c.setContainers (dset c.containers key sub)
  | .arr a => c.setFields (dset c.fields key a)

/-- `FieldContainer.__delitem__` (fields.py lines 328–331): drop the
recipe when present, then `del self.fields[key]` unguarded — a `KeyError`
when the key is not a materialized field.  Python mutations before the
raise persist, so the result pairs the final container with an optional
exception. -/
def FC.delitem (c : FC) (key : String) : FC × Option Err :=
  let c1 := if dmem c.fieldrecipes key then c.setRecipes (ddel c.fieldrecipes key) else c
  if dmem c1.fields key then (c1.setFields (ddel c1.fields key), none)
  else (c1, some (.keyError ("KeyError " ++ key)))

/-- `FieldContainer.new_container(key)` (fields.py lines 146–150):
attach a fresh empty child under `key`. -/
def FC.newContainer (c : FC) (key : String) : FC :=
  c.setContainers (dset c.containers key emptyFC)

/-- The decorator produced by `FieldContainer.register_field` with
`containernames=None`, applied to a generator: insert a
`DerivedFieldRecipe` for `name` into `self.fieldrecipes`. -/
def FC.registerField (c : FC) (name : String) (g : Gen) : FC :=
  c.setRecipes (dset c.fieldrecipes name g)

/-- `FieldContainer.add_alias(alias, name)`. -/
def FC.addAlias (c : FC) (al name : String) : FC :=
  c.setAliases (dset c.aliases al name)

/-- One iteration of the `for k in collection.containers` loop of
`FieldContainer.merge` (fields.py lines 156–168), acting on the threaded
pair (self, collection).  A missing child of `self` is first created
empty; with `overwrite=True` the entries of `collection`'s child are
applied on top of `self`'s child, with `overwrite=False` the entries of
`self`'s child are applied on top of `collection`'s child (mutating the
argument's child). -/
def mergeStep (overwrite : Bool) (st : FC × FC) (kv : String × FC) : FC × FC :=
  let s := st.1
  let o := st.2
  let k := kv.1
  let s := if dmem s.containers k then s
           else s.setContainers (dset s.containers k emptyFC)
  if overwrite then
    let c1 := (dlookup s.containers k).getD emptyFC
    let c2 := (dlookup o.containers k).getD emptyFC
    let c1 := c1.setFields (dupdate c1.fields c2.fields)
    let c1 := c1.setRecipes (dupdate c1.fieldrecipes c2.fieldrecipes)
    (s.setContainers (dset s.containers k c1), o)
  else
    let c1 := (dlookup o.containers k).getD emptyFC
    let c2 := (dlookup s.containers k).getD emptyFC
    let c1 := c1.setFields (dupdate c1.fields c2.fields)
    let c1 := c1.setRecipes (dupdate c1.fieldrecipes c2.fieldrecipes)
    (s, o.setContainers (dset o.containers k c1))

/-- `FieldContainer.merge(collection, overwrite)` (fields.py lines
152–168): iterate `mergeStep` over the argument's children.  Both sides
can be mutated, so the result is the final pair (self, collection). -/
def FC.merge (self other : FC) (overwrite : Bool) : FC × FC :=
  other.containers.foldl (mergeStep overwrite) (self, other)

/-- `FieldContainer.fieldlength` (fields.py lines 174–181):
`next(iter(self.fields.values()))` raises `StopIteration` on an empty
`fields`; otherwise return the first field's `shape[0]` when all fields
agree on it, and Python `None` (`ok none`) when they disagree. -/
def FC.fieldlength (c : FC) : Except Err (Option Nat) :=
  match c.fields with
  | [] => .error .stopIteration
  | (_, a) :: _ =>
    if c.fields.all (fun p => a.length == p.2.length) then .ok (some a.length)
    else .ok none

/-! ### Concrete containers used by witnesses and counterexamples -/

/-- A concrete container for the claim-C1 witness: `"a"` is an alias of
`"b"`; `"b"` is both a materialized field (`[7]`) and itself an alias of
`"zz"` and carries a raising recipe; `"sub"` is a child. -/
def witC1 : FC :=
  .mk [("a", "b"), ("b", "zz")] [("b", [7])] [("b", .raiseKeyG "nope")]
    [("sub", emptyFC)]

/-- The spec's scenario container: `C["x"] = [1,2,3]` and a registered
recipe `"double" = lambda self: self["x"] * 2`. -/
def cDouble : FC :=
  (emptyFC.setitem "x" (.arr [1, 2, 3])).registerField "double" (.scaleG "x" 2)

/-- A container whose only entry is a recipe whose generator raises a
`KeyError`. -/
def cBoomKey : FC := emptyFC.registerField "bad" (.raiseKeyG "boom")

/-- A container whose only entry is a recipe whose generator raises a
`ValueError`. -/
def cBoomVal : FC := emptyFC.registerField "badv" (.raiseValG "vboom")

/-- A container in which `"x"` is simultaneously a materialized field and
a registered recipe. -/
def cBoth : FC := (emptyFC.setitem "x" (.arr [7])).registerField "x" (.constG [0])

/-- A container holding only the recipe `"r"`, no materialized fields. -/
def cRonly : FC := emptyFC.registerField "r" (.constG [1])

/-- A container on which `"x"` was assigned an array and then reassigned a
child container. -/
def cClash : FC := (emptyFC.setitem "x" (.arr [1])).setitem "x" (.cont emptyFC)

/-- Merge-test container X: one child `"g"` with field `"a" = [1]`. -/
def mergeX : FC := .mk [] [] [] [("g", .mk [] [("a", [1])] [] [])]

/-- Merge-test container Y: one child `"g"` with field `"a" = [2]`. -/
def mergeY : FC := .mk [] [] [] [("g", .mk [] [("a", [2])] [] [])]

/-- A container with two fields of equal first-dimension length 2. -/
def cLenOk : FC := (emptyFC.setitem "a" (.arr [1, 2])).setitem "b" (.arr [3, 4])

/-- A container with two fields of differing first-dimension lengths. -/
def cLenBad : FC := (emptyFC.setitem "a" (.arr [1, 2])).setitem "b" (.arr [3])

/-- How a merged child is produced by `merge` (fields.py lines 167–168):
`c1.fields.update(**c2.fields); c1.fieldrecipes.update(**c2.fieldrecipes)` —
`c2`'s entries applied on top of `c1`'s. -/
def childUpd (c1 c2 : FC) : FC :=
  (c1.setFields (dupdate c1.fields c2.fields)).setRecipes
    (dupdate c1.fieldrecipes c2.fieldrecipes)

/-! ### Association-list lemmas -/

theorem dlookup_dset_self (d : List (String × α)) (k : String) (v : α) :
    dlookup (dset d k v) k = some v := by
  induction d with
  | nil => simp [dset, dlookup]
  | cons p d ih =>
    by_cases h : p.1 = k
    · simp [dset, dlookup, h]
    · simp [dset, dlookup, h, ih]

theorem dlookup_dset_ne (d : List (String × α)) (k k' : String) (v : α)
    (h : k' ≠ k) : dlookup (dset d k v) k' = dlookup d k' := by
  induction d with
  | nil => simp [dset, dlookup, Ne.symm h]
  | cons p d ih =>
    by_cases hp : p.1 = k
    · simp [dset, dlookup, hp, Ne.symm h]
    · simp [dset, dlookup, hp, ih]

theorem dmem_dset_self (d : List (String × α)) (k : String) (v : α) :
    dmem (dset d k v) k = true := by
  simp [dmem, dlookup_dset_self]

theorem dlookup_ddel_self (d : List (String × α)) (k : String) :
    dlookup (ddel d k) k = none := by
  induction d with
  | nil => simp [ddel, dlookup]
  | cons p d ih =>
    by_cases h : p.1 = k
    · simpa [ddel, h] using ih
    · simpa [ddel, dlookup, h] using ih

theorem dmem_ddel_self (d : List (String × α)) (k : String) :
    dmem (ddel d k) k = false := by
  simp [dmem, dlookup_ddel_self]

theorem dlookup_dupdate_notmem (d l : List (String × α)) (k : String)
    (h : ¬ k ∈ dkeys l) : dlookup (dupdate d l) k = dlookup d k := by
  induction l generalizing d with
  | nil => simp [dupdate]
  | cons p l ih =>
    simp only [dkeys, List.map_cons, List.mem_cons] at h
    push_neg at h
    have hrec := ih (dset d p.1 p.2) (by simpa [dkeys] using h.2)
    simpa [dupdate, List.foldl_cons] using
      hrec.trans (dlookup_dset_ne d p.1 k p.2 h.1)

theorem dlookup_dupdate_mem (d l : List (String × α)) (k : String) (v : α)
    (hnd : (dkeys l).Nodup) (h : dlookup l k = some v) :
    dlookup (dupdate d l) k = some v := by
  induction l generalizing d with
  | nil => simp [dlookup] at h
  | cons p l ih =>
    simp only [dkeys, List.map_cons, List.nodup_cons] at hnd
    by_cases hp : p.1 = k
    · have hv : v = p.2 := by
        simp [dlookup, hp] at h
        exact h.symm
      have : ¬ k ∈ dkeys l := by
        rw [← hp]; simpa [dkeys] using hnd.1
      calc dlookup (dupdate d (p :: l)) k
          = dlookup (dset d p.1 p.2) k := by
            simpa [dupdate, List.foldl_cons] using
              dlookup_dupdate_notmem (dset d p.1 p.2) l k this
        _ = some v := by rw [hp, dlookup_dset_self, hv]
    · have hl : dlookup l k = some v := by simpa [dlookup, hp] using h
      simpa [dupdate, List.foldl_cons] using
        ih (dset d p.1 p.2) (by simpa [dkeys] using hnd.2) hl

/-! ### Projection lemmas for the attribute-replacement helpers -/

@[simp] theorem FC.aliases_setRecipes (c : FC) (r : List (String × Gen)) :
    (c.setRecipes r).aliases = c.aliases := by cases c; rfl

@[simp] theorem FC.fields_setRecipes (c : FC) (r : List (String × Gen)) :
    (c.setRecipes r).fields = c.fields := by cases c; rfl

@[simp] theorem FC.containers_setRecipes (c : FC) (r : List (String × Gen)) :
    (c.setRecipes r).containers = c.containers := by cases c; rfl

@[simp] theorem FC.fieldrecipes_setRecipes (c : FC) (r : List (String × Gen)) :
    (c.setRecipes r).fieldrecipes = r := by cases c; rfl

@[simp] theorem FC.aliases_setFields (c : FC) (f : List (String × List Int)) :
    (c.setFields f).aliases = c.aliases := by cases c; rfl

@[simp] theorem FC.fields_setFields (c : FC) (f : List (String × List Int)) :
    (c.setFields f).fields = f := by cases c; rfl

@[simp] theorem FC.containers_setFields (c : FC) (f : List (String × List Int)) :
    (c.setFields f).containers = c.containers := by cases c; rfl

@[simp] theorem FC.fieldrecipes_setFields (c : FC) (f : List (String × List Int)) :
    (c.setFields f).fieldrecipes = c.fieldrecipes := by cases c; rfl

@[simp] theorem FC.aliases_setContainers (c : FC) (cs : List (String × FC)) :
    (c.setContainers cs).aliases = c.aliases := by cases c; rfl

@[simp] theorem FC.fields_setContainers (c : FC) (cs : List (String × FC)) :
    (c.setContainers cs).fields = c.fields := by cases c; rfl

@[simp] theorem FC.containers_setContainers (c : FC) (cs : List (String × FC)) :
    (c.setContainers cs).containers = cs := by cases c; rfl

@[simp] theorem FC.fieldrecipes_setContainers (c : FC) (cs : List (String × FC)) :
    (c.setContainers cs).fieldrecipes = c.fieldrecipes := by cases c; rfl

/-! ### Branch lemmas for `_getitem` -/

/-- Container branch of `_getitem`: a child container under the resolved
key is returned, state untouched. -/
theorem getitemCore_cont (n : Nat) (c : FC) (k : String) (force upd : Bool)
    (k2 : String) (hk2 : k2 = (dlookup c.aliases k).getD k)
    (sub : FC) (hc : dlookup c.containers k2 = some sub) :
    FC.getitemCore (n + 1) c k force upd = .ok (.cont sub, c) := by
  subst hk2
  simp [FC.getitemCore, hc]

/-- Field branch of `_getitem`: with `force_derived=False`, a materialized
field under the resolved key is returned, state untouched. -/
theorem getitemCore_field (n : Nat) (c : FC) (k : String) (upd : Bool)
    (k2 : String) (hk2 : k2 = (dlookup c.aliases k).getD k)
    (hc : dlookup c.containers k2 = none)
    (a : List Int) (hf : dlookup c.fields k2 = some a) :
    FC.getitemCore (n + 1) c k false upd = .ok (.arr a, c) := by
  subst hk2
  simp [FC.getitemCore, hc, hf]

/-- Recipe branch of `_getitem`: when neither a container nor (unless
forced) a field matches the resolved key but a recipe does, the result is
exactly the generator's outcome finished by `deriveFinish`. -/
theorem getitemCore_recipe (n : Nat) (c : FC) (k : String) (force upd : Bool)
    (k2 : String) (hk2 : k2 = (dlookup c.aliases k).getD k)
    (hc : dlookup c.containers k2 = none)
    (hforce : dlookup c.fields k2 = none ∨ force = true)
    (g : Gen) (hg : dlookup c.fieldrecipes k2 = some g) :
    FC.getitemCore (n + 1) c k force upd = deriveFinish (FC.evalGen n c g) k2 upd := by
  subst hk2
  rcases hforce with hf | hf
  · cases g <;> simp [FC.getitemCore, FC.evalGen, deriveFinish, hc, hf, hg]
  · subst hf
    cases hfld : dlookup c.fields ((dlookup c.aliases k).getD k) <;>
      cases g <;>
        simp [FC.getitemCore, FC.evalGen, deriveFinish, hc, hfld, hg]

/-- Failure branch of `_getitem`: no container, no usable field, no
recipe — a `KeyError`. -/
theorem getitemCore_missing (n : Nat) (c : FC) (k : String) (force upd : Bool)
    (k2 : String) (hk2 : k2 = (dlookup c.aliases k).getD k)
    (hc : dlookup c.containers k2 = none)
    (hforce : dlookup c.fields k2 = none ∨ force = true)
    (hr : dlookup c.fieldrecipes k2 = none) :
    FC.getitemCore (n + 1) c k force upd
      = .error (.keyError ("Unknown field " ++ k2)) := by
  subst hk2
  rcases hforce with hf | hf
  · simp [FC.getitemCore, hc, hf, hr]
  · subst hf
    cases hfld : dlookup c.fields ((dlookup c.aliases k).getD k) <;>
      simp [FC.getitemCore, hc, hfld, hr]

/-! ### Claim C1: lookup resolution precedence -/

/-- Claim C1.  Lookup resolution precedence of `_getitem`: the alias is
substituted once, giving `k2`; if `k2` names a child container that
container is returned; otherwise a materialized field is returned as is —
unchanged even if any recipe is simultaneously installed under `k2`
(conjunct two, which also shows the state is untouched, so no generator
ran) — provided `force_derived` is not set; only otherwise, and only when
a recipe exists, is the generator evaluated; with no recipe the lookup
fails with a `KeyError`. -/
theorem lookup_precedence (n : Nat) (c : FC) (k : String) (force upd : Bool)
    (k2 : String) (hk2 : k2 = (dlookup c.aliases k).getD k) :
    (∀ sub, dlookup c.containers k2 = some sub →
        FC.getitemCore (n + 1) c k force upd = .ok (.cont sub, c)) ∧
    (dlookup c.containers k2 = none →
      ∀ a, dlookup c.fields k2 = some a →
        FC.getitemCore (n + 1) c k false upd = .ok (.arr a, c) ∧
        (∀ g, FC.getitemCore (n + 1) (c.setRecipes (dset c.fieldrecipes k2 g)) k
              false upd
            = .ok (.arr a, c.setRecipes (dset c.fieldrecipes k2 g)))) ∧
    (dlookup c.containers k2 = none →
      (dlookup c.fields k2 = none ∨ force = true) →
      ∀ g, dlookup c.fieldrecipes k2 = some g →
        FC.getitemCore (n + 1) c k force upd = deriveFinish (FC.evalGen n c g) k2 upd) ∧
    (dlookup c.containers k2 = none →
      (dlookup c.fields k2 = none ∨ force = true) →
      dlookup c.fieldrecipes k2 = none →
      FC.getitemCore (n + 1) c k force upd
        = .error (.keyError ("Unknown field " ++ k2))) := by
  refine ⟨?_, ?_, ?_, ?_⟩
  · intro sub h
    exact getitemCore_cont n c k force upd k2 hk2 sub h
  · intro hc a hf
    refine ⟨getitemCore_field n c k upd k2 hk2 hc a hf, fun g => ?_⟩
    exact getitemCore_field n (c.setRecipes (dset c.fieldrecipes k2 g)) k upd k2
      (by simpa using hk2) (by simpa using hc) a (by simpa using hf)
  · intro hc hforce g hg
    exact getitemCore_recipe n c k force upd k2 hk2 hc hforce g hg
  · intro hc hforce hr
    exact getitemCore_missing n c k force upd k2 hk2 hc hforce hr

/-- Witness for claim C1: looking up alias `"a"` in `witC1` substitutes the
alias once (to `"b"`, not onward to `"zz"`) and returns the stored field
`[7]` untouched, with the container unchanged, although a raising recipe
named `"b"` is installed. -/
theorem lookup_precedence_witness :
    FC.getitemCore 5 witC1 "a" false true = .ok (.arr [7], witC1) :=
  ((lookup_precedence 4 witC1 "a" false true "b" rfl).2.1 rfl [7] rfl).1

/-! ### Claim C2: whether `get` caches derived results -/

/-- Counterexample to claim C2 on the spec's own scenario: `C.get("double")`
succeeds with `[2,4,6]` yet leaves the container exactly as it was —
`"double"` is not in `C.fields` afterwards, because `get` calls `_getitem`
with `update_dict=False`. -/
theorem get_no_cache_cex :
    FC.get 5 cDouble "double" none true false
      = .ok (some (.arr [2, 4, 6]), cDouble) ∧
    dmem cDouble.fields "double" = false :=
  ⟨rfl, rfl⟩

/-- Claim C2 as amended: for a recipe-only key whose generator succeeds
without mutating the container, `get` returns the derived value but does
not cache it — the container is unchanged and the key stays absent from
`fields`, so a later `get` derives again; caching happens only through
subscript access (`__getitem__`, `update_dict=True`), after which the key
is present in `fields`. -/
theorem get_skips_cache (n : Nat) (c : FC) (k : String) (d : Option PyVal)
    (a : List Int) (g : Gen)
    (halias : dlookup c.aliases k = none)
    (hcont : dlookup c.containers k = none)
    (hfld : dlookup c.fields k = none)
    (hg : dlookup c.fieldrecipes k = some g)
    (heval : FC.evalGen n c g = .ok (a, c)) :
    FC.get (n + 1) c k d true false = .ok (some (.arr a), c) ∧
    dmem c.fields k = false ∧
    FC.getitem (n + 1) c k = .ok (.arr a, c.setFields (dset c.fields k a)) ∧
    dmem (c.setFields (dset c.fields k a)).fields k = true := by
  have hk2 : k = (dlookup c.aliases k).getD k := by simp [halias]
  have hnoupd := getitemCore_recipe n c k false false k hk2 hcont (Or.inl hfld) g hg
  have hupd := getitemCore_recipe n c k false true k hk2 hcont (Or.inl hfld) g hg
  rw [heval] at hnoupd hupd
  refine ⟨?_, ?_, ?_, ?_⟩
  · simp [FC.get, hnoupd, deriveFinish]
  · simp [dmem, hfld]
  · simp [FC.getitem, hupd, deriveFinish]
  · simp [dmem, dlookup_dset_self]

/-- Witness for `get_skips_cache` on the spec's scenario container. -/
theorem get_skips_cache_witness :
    FC.get 5 cDouble "double" none true false
      = .ok (some (.arr [2, 4, 6]), cDouble) ∧
    dmem cDouble.fields "double" = false ∧
    FC.getitem 5 cDouble "double"
      = .ok (.arr [2, 4, 6],
          cDouble.setFields (dset cDouble.fields "double" [2, 4, 6])) ∧
    dmem (cDouble.setFields (dset cDouble.fields "double" [2, 4, 6])).fields
      "double" = true :=
  get_skips_cache 4 cDouble "double" none [2, 4, 6] (.scaleG "x" 2)
    rfl rfl rfl rfl rfl

/-! ### Claim C5: propagation of generator failures -/

/-- Counterexample to claim C5: the generator of `"bad"` raises a
`KeyError`, yet `FC.get` with a default does not propagate it — the
`except KeyError` handler of `get` swallows it and silently returns the
default `[9]`. -/
theorem gen_error_swallowed_cex :
    FC.get 5 cBoomKey "bad" (some (.arr [9])) true false
      = .ok (some (.arr [9]), cBoomKey) :=
  rfl

/-- Claim C5 as amended: a generator failure propagates unchanged through
subscript lookup for every modelled exception, and through `get` for
exceptions other than `KeyError`; a `KeyError` raised by the generator,
however, is caught by `get`'s `except KeyError` handler, which returns the
supplied default instead. -/
theorem gen_error_propagation (n : Nat) (c : FC) (k : String) (d : Option PyVal)
    (msg : String)
    (halias : dlookup c.aliases k = none)
    (hcont : dlookup c.containers k = none)
    (hfld : dlookup c.fields k = none) :
    (dlookup c.fieldrecipes k = some (.raiseValG msg) →
      FC.getitem (n + 1) c k = .error (.valueError msg) ∧
      FC.get (n + 1) c k d true false = .error (.valueError msg)) ∧
    (dlookup c.fieldrecipes k = some (.raiseKeyG msg) →
      FC.getitem (n + 1) c k = .error (.keyError msg) ∧
      FC.get (n + 1) c k d true false = .ok (d, c)) := by
  have hk2 : k = (dlookup c.aliases k).getD k := by simp [halias]
  constructor
  · intro hg
    have h1 := getitemCore_recipe n c k false true k hk2 hcont (Or.inl hfld)
      (.raiseValG msg) hg
    have h0 := getitemCore_recipe n c k false false k hk2 hcont (Or.inl hfld)
      (.raiseValG msg) hg
    refine ⟨?_, ?_⟩
    · simp [FC.getitem, h1, FC.evalGen, deriveFinish]
    · simp [FC.get, h0, FC.evalGen, deriveFinish]
  · intro hg
    have h1 := getitemCore_recipe n c k false true k hk2 hcont (Or.inl hfld)
      (.raiseKeyG msg) hg
    have h0 := getitemCore_recipe n c k false false k hk2 hcont (Or.inl hfld)
      (.raiseKeyG msg) hg
    refine ⟨?_, ?_⟩
    · simp [FC.getitem, h1, FC.evalGen, deriveFinish]
    · simp [FC.get, h0, FC.evalGen, deriveFinish]

/-- Witness for `gen_error_propagation`, applied to the `ValueError`
container `cBoomVal` and the `KeyError` container `cBoomKey`. -/
theorem gen_error_propagation_witness :
    (FC.getitem 5 cBoomVal "badv" = .error (.valueError "vboom") ∧
     FC.get 5 cBoomVal "badv" (some (.arr [9])) true false
       = .error (.valueError "vboom")) ∧
    (FC.getitem 5 cBoomKey "bad" = .error (.keyError "boom") ∧
     FC.get 5 cBoomKey "bad" (some (.arr [9])) true false
       = .ok (some (.arr [9]), cBoomKey)) :=
  ⟨(gen_error_propagation 4 cBoomVal "badv" (some (.arr [9])) "vboom"
      rfl rfl rfl).1 rfl,
   (gen_error_propagation 4 cBoomKey "bad" (some (.arr [9])) "boom"
      rfl rfl rfl).2 rfl⟩

/-! ### Claim C6: rejecting derived keys (`allow_derived=False`) -/

/-- Counterexample to claim C6: `"x"` is a materialized field (`[7]`) and
also carries a recipe; `get("x", allow_derived=False)` nevertheless raises
the derived-field `KeyError` instead of returning the stored field. -/
theorem allow_derived_cex :
    FC.get 5 cBoth "x" none false false
      = .error (.keyError "Field x is derived (allow_derived=False)") :=
  rfl

/-- Claim C6 as amended: `get` with `allow_derived=False` raises a
`KeyError` exactly when a recipe is registered under the requested
(unaliased) key — even when a materialized field of the same name exists;
when no recipe is registered, the lookup proceeds normally: a child
container or a materialized field is returned, and a completely unknown
key yields the default. -/
theorem allow_derived_rejects (n : Nat) (c : FC) (k : String) (d : Option PyVal)
    (force : Bool) (halias : dlookup c.aliases k = none) :
    (∀ g, dlookup c.fieldrecipes k = some g →
      FC.get (n + 1) c k d false force
        = .error (.keyError ("Field " ++ k ++ " is derived (allow_derived=False)"))) ∧
    (dlookup c.fieldrecipes k = none →
      ∀ sub, dlookup c.containers k = some sub →
        FC.get (n + 1) c k d false force = .ok (some (.cont sub), c)) ∧
    (dlookup c.fieldrecipes k = none → dlookup c.containers k = none →
      ∀ a, dlookup c.fields k = some a →
        FC.get (n + 1) c k d false false = .ok (some (.arr a), c)) ∧
    (dlookup c.fieldrecipes k = none → dlookup c.containers k = none →
      dlookup c.fields k = none →
        FC.get (n + 1) c k d false force = .ok (d, c)) := by
  have hk2 : k = (dlookup c.aliases k).getD k := by simp [halias]
  refine ⟨?_, ?_, ?_, ?_⟩
  · intro g hg
    simp [FC.get, dmem, hg]
  · intro hr sub hsub
    have h := getitemCore_cont n c k force false k hk2 sub hsub
    simp [FC.get, dmem, hr, h]
  · intro hr hcont a ha
    have h := getitemCore_field n c k false k hk2 hcont a ha
    simp [FC.get, dmem, hr, h]
  · intro hr hcont hfld
    have h := getitemCore_missing n c k force false k hk2 hcont (Or.inl hfld) hr
    simp [FC.get, dmem, hr, h]

/-- Witness for `allow_derived_rejects`: the rejection conjunct applied to
`cBoth`, where `"x"` is both stored and recipe-backed. -/
theorem allow_derived_rejects_witness :
    FC.get 5 cBoth "x" none false false
      = .error (.keyError ("Field " ++ "x" ++ " is derived (allow_derived=False)")) :=
  (allow_derived_rejects 4 cBoth "x" none false rfl).1 (.constG [0]) rfl

/-! ### Claim C7: deletion semantics -/

/-- Counterexample to claim C7: deleting the recipe-only key `"r"` is not
tolerated — the recipe entry is removed, and the unguarded
`del self.fields[key]` then raises a `KeyError`. -/
theorem delitem_recipe_only_cex :
    (FC.delitem cRonly "r").2 = some (.keyError ("KeyError " ++ "r")) ∧
    dmem (FC.delitem cRonly "r").1.fieldrecipes "r" = false :=
  ⟨rfl, rfl⟩

/-- Claim C7 as amended: item deletion removes the key from both `recipes`
(when present) and `fields`, and it raises a `KeyError` exactly when the
key is absent from `fields` — in particular a recipe-only deletion also
raises, after having removed the recipe entry. -/
theorem delitem_semantics (c : FC) (k : String) :
    dmem (FC.delitem c k).1.fieldrecipes k = false ∧
    dmem (FC.delitem c k).1.fields k = false ∧
    ((FC.delitem c k).2 = none ↔ dmem c.fields k = true) := by
  cases hrl : dlookup c.fieldrecipes k <;> cases hfl : dlookup c.fields k <;>
    simp [FC.delitem, dmem, hrl, hfl, dlookup_ddel_self]

/-! ### Claim C4: fields/containers disjointness -/

/-- Counterexample to claim C4: assigning `"x"` an array and then a child
container leaves `"x"` present in `fields` and in `containers`
simultaneously — `__setitem__` never clears the other bucket. -/
theorem setitem_disjoint_cex :
    dmem cClash.fields "x" = true ∧ dmem cClash.containers "x" = true :=
  ⟨rfl, rfl⟩

/-- Claim C4 as amended: `__setitem__` routes a `FieldContainer` value into
`containers` and any other value into `fields`, and the write leaves the
other bucket untouched — so the disjointness invariant does not hold:
assigning a field and then a container under the same key (or conversely)
leaves the key present in both buckets. -/
theorem setitem_routes (c : FC) (k : String) :
    (∀ sub : FC,
      (c.setitem k (.cont sub)).containers = dset c.containers k sub ∧
      (c.setitem k (.cont sub)).fields = c.fields ∧
      (c.setitem k (.cont sub)).fieldrecipes = c.fieldrecipes) ∧
    (∀ a : List Int,
      (c.setitem k (.arr a)).fields = dset c.fields k a ∧
      (c.setitem k (.arr a)).containers = c.containers ∧
      (c.setitem k (.arr a)).fieldrecipes = c.fieldrecipes) := by
  constructor
  · intro sub
    refine ⟨?_, ?_, ?_⟩ <;> simp [FC.setitem]
  · intro a
    refine ⟨?_, ?_, ?_⟩ <;> simp [FC.setitem]

/-! ### Claims C8 and C10: the uniform-length query -/

/-- Claim C8: on a container with at least one materialized field, the
`fieldlength` property returns the common first-dimension length when all
fields agree on it, and Python `None` (modelled `ok none`), not an
exception, when any two fields disagree. -/
theorem fieldlength_uniform (c : FC) (p0 : String × List Int)
    (rest : List (String × List Int)) (h : c.fields = p0 :: rest) :
    (∀ N : Nat, (∀ q ∈ c.fields, q.2.length = N) →
      FC.fieldlength c = .ok (some N)) ∧
    ((∃ q ∈ c.fields, ∃ r ∈ c.fields, q.2.length ≠ r.2.length) →
      FC.fieldlength c = .ok none) := by
  obtain ⟨s0, a0⟩ := p0
  constructor
  · intro N hall
    have h0 : a0.length = N := by
      simpa using hall (s0, a0) (by simp [h])
    have hb : (c.fields.all fun p => a0.length == p.2.length) = true := by
      rw [List.all_eq_true]
      intro q hq
      simp [h0, hall q hq]
    rw [h] at hb
    rw [FC.fieldlength, h]
    simp only [hb, if_true]
    simp [h0]
  · rintro ⟨q, hq, r, hr, hqr⟩
    have hb : (c.fields.all fun p => a0.length == p.2.length) = false := by
      by_contra hcon
      have hb2 : (c.fields.all fun p => a0.length == p.2.length) = true := by
        revert hcon
        cases c.fields.all fun p => a0.length == p.2.length <;> simp
      rw [List.all_eq_true] at hb2
      have h1 := hb2 q hq
      have h2 := hb2 r hr
      simp only [beq_iff_eq] at h1 h2
      exact hqr (h1 ▸ h2)
    rw [h] at hb
    rw [FC.fieldlength, h]
    simp only [hb]
    simp

/-- Witness for `fieldlength_uniform`: the uniform container `cLenOk`
reports length two; the disagreeing container `cLenBad` reports `None`. -/
theorem fieldlength_uniform_witness :
    FC.fieldlength cLenOk = .ok (some 2) ∧ FC.fieldlength cLenBad = .ok none :=
  ⟨(fieldlength_uniform cLenOk ("a", [1, 2]) [("b", [3, 4])] rfl).1 2
      (by decide),
   (fieldlength_uniform cLenBad ("a", [1, 2]) [("b", [3])] rfl).2
      ⟨("a", [1, 2]), by decide, ("b", [3]), by decide, by decide⟩⟩

/-- Claim C10: on a container whose `fields` mapping is empty, reading
`fieldlength` raises (`StopIteration` from `next` on the empty values
iterator) instead of returning a value. -/
theorem fieldlength_empty_raises (c : FC) (h : c.fields = []) :
    FC.fieldlength c = .error .stopIteration := by
  rw [FC.fieldlength, h]

/-- Witness for `fieldlength_empty_raises` at the empty container. -/
theorem fieldlength_empty_raises_witness :
    FC.fieldlength emptyFC = .error .stopIteration :=
  fieldlength_empty_raises emptyFC rfl

/-! ### Merge lemmas -/

theorem mem_dkeys_of_dlookup (d : List (String × α)) (k : String) (v : α)
    (h : dlookup d k = some v) : k ∈ dkeys d := by
  induction d with
  | nil => simp [dlookup] at h
  | cons p d ih =>
    by_cases hp : p.1 = k
    · simp [dkeys, hp]
    · simp only [dlookup] at h
      rw [if_neg (by simpa using hp)] at h
      simp only [dkeys, List.map_cons, List.mem_cons]
      right
      simpa [dkeys] using ih h

/-- A `mergeStep` for key `kv.1` does not change the `self` side's child
mapping at any other key. -/
theorem mergeStep_fst_ne (ow : Bool) (st : FC × FC) (kv : String × FC)
    (k' : String) (h : k' ≠ kv.1) :
    dlookup (mergeStep ow st kv).1.containers k' = dlookup st.1.containers k' := by
  cases ow <;>
    cases hsc : dlookup st.1.containers kv.1 <;>
      simp [mergeStep, dmem, hsc, dlookup_dset_ne _ _ _ _ h]

/-- A `mergeStep` for key `kv.1` does not change the argument side's child
mapping at any other key. -/
theorem mergeStep_snd_ne (ow : Bool) (st : FC × FC) (kv : String × FC)
    (k' : String) (h : k' ≠ kv.1) :
    dlookup (mergeStep ow st kv).2.containers k' = dlookup st.2.containers k' := by
  cases ow <;>
    cases hsc : dlookup st.1.containers kv.1 <;>
      simp [mergeStep, dmem, hsc, dlookup_dset_ne _ _ _ _ h]

/-- Value of the `self` side's child mapping at the processed key after one
`mergeStep`: with `overwrite=True` it is self's child (or a fresh empty
one) with the argument's entries applied on top; with `overwrite=False` it
is self's child unchanged (or a fresh empty one). -/
theorem mergeStep_fst_self (ow : Bool) (st : FC × FC) (k : String) (x : FC) :
    dlookup (mergeStep ow st (k, x)).1.containers k =
      some (if ow then
              childUpd ((dlookup st.1.containers k).getD emptyFC)
                ((dlookup st.2.containers k).getD emptyFC)
            else (dlookup st.1.containers k).getD emptyFC) := by
  cases ow <;>
    cases hsc : dlookup st.1.containers k <;>
      simp [mergeStep, childUpd, dmem, hsc, dlookup_dset_self]

/-- Value of the argument side's child mapping at the processed key after
one `mergeStep`: with `overwrite=True` it is untouched; with
`overwrite=False` it is the argument's child (or a fresh empty one) with
self's child's entries applied on top. -/
theorem mergeStep_snd_self (ow : Bool) (st : FC × FC) (k : String) (x : FC) :
    dlookup (mergeStep ow st (k, x)).2.containers k =
      if ow then dlookup st.2.containers k
      else some (childUpd ((dlookup st.2.containers k).getD emptyFC)
                   ((dlookup st.1.containers k).getD emptyFC)) := by
  cases ow <;>
    cases hsc : dlookup st.1.containers k <;>
      simp [mergeStep, childUpd, dmem, hsc, dlookup_dset_self]

/-- Folding `mergeStep` over entries whose keys avoid `k` leaves both
sides' child mappings unchanged at `k`. -/
theorem merge_foldl_untouched (ow : Bool) (l : List (String × FC))
    (st : FC × FC) (k : String) (h : ¬ k ∈ l.map Prod.fst) :
    dlookup (l.foldl (mergeStep ow) st).1.containers k
      = dlookup st.1.containers k ∧
    dlookup (l.foldl (mergeStep ow) st).2.containers k
      = dlookup st.2.containers k := by
  induction l generalizing st with
  | nil => simp
  | cons p l ih =>
    simp only [List.map_cons, List.mem_cons] at h
    push_neg at h
    have h1 := ih (mergeStep ow st p) h.2
    rw [List.foldl_cons]
    exact ⟨h1.1.trans (mergeStep_fst_ne ow st p k h.1),
           h1.2.trans (mergeStep_snd_ne ow st p k h.1)⟩

/-- With distinct keys, the fold's effect at a processed key `k` is
exactly the effect of the single `mergeStep` for `k` on the initial
state. -/
theorem merge_foldl_at (ow : Bool) (l : List (String × FC)) (st : FC × FC)
    (k : String) (hnd : (l.map Prod.fst).Nodup) (hk : k ∈ l.map Prod.fst) :
    dlookup (l.foldl (mergeStep ow) st).1.containers k
      = dlookup (mergeStep ow st (k, emptyFC)).1.containers k ∧
    dlookup (l.foldl (mergeStep ow) st).2.containers k
      = dlookup (mergeStep ow st (k, emptyFC)).2.containers k := by
  induction l generalizing st with
  | nil => simp at hk
  | cons p l ih =>
    obtain ⟨pk, pv⟩ := p
    simp only [List.map_cons, List.nodup_cons] at hnd
    rw [List.foldl_cons]
    rcases List.mem_cons.mp hk with hkp | hkl
    · subst hkp
      have hnot : ¬ k ∈ l.map Prod.fst := hnd.1
      have h1 := merge_foldl_untouched ow l (mergeStep ow st (k, pv)) k hnot
      refine ⟨?_, ?_⟩
      · rw [h1.1, mergeStep_fst_self, mergeStep_fst_self]
      · rw [h1.2, mergeStep_snd_self, mergeStep_snd_self]
    · have hne : k ≠ pk := fun he => hnd.1 (he ▸ hkl)
      have h2 := ih (mergeStep ow st (pk, pv)) hnd.2 hkl
      refine ⟨?_, ?_⟩
      · rw [h2.1, mergeStep_fst_self, mergeStep_fst_self,
            mergeStep_fst_ne ow st (pk, pv) k hne,
            mergeStep_snd_ne ow st (pk, pv) k hne]
      · rw [h2.2, mergeStep_snd_self, mergeStep_snd_self,
            mergeStep_fst_ne ow st (pk, pv) k hne,
            mergeStep_snd_ne ow st (pk, pv) k hne]

/-! ### Claim C3: merge overwrite semantics -/

/-- Counterexample to claim C3: merging `mergeX` (child `"g"` with
`"a"=[1]`) into `mergeY` (child `"g"` with `"a"=[2]`) via
`mergeY.merge(mergeX, overwrite=True)` leaves the observed value `[1]` —
the argument's entry, not self's `[2]` as the claim asserts. -/
theorem merge_overwrite_cex :
    (dlookup (FC.merge mergeY mergeX true).1.containers "g").map
        (fun s => dlookup s.fields "a") = some (some [1]) :=
  rfl

/-- Claim C3 as amended: with `overwrite=True`, `Y.merge(X)` applies the
entries of the argument `X`'s child on top of `Y`'s (self's) child, so for
an exact key collision the argument's value is the final one: merging X's
child field `"a"=[1]` into Y's child field `"a"=[2]` leaves `[1]`
observed. -/
theorem merge_overwrite_arg_wins (self other : FC) (k f : String)
    (sc oc : FC) (v : List Int)
    (hnd : (dkeys other.containers).Nodup)
    (hndf : (dkeys oc.fields).Nodup)
    (hoc : dlookup other.containers k = some oc)
    (hsc : dlookup self.containers k = some sc)
    (hv : dlookup oc.fields f = some v) :
    dlookup (FC.merge self other true).1.containers k = some (childUpd sc oc) ∧
    dlookup (childUpd sc oc).fields f = some v := by
  constructor
  · have hk : k ∈ dkeys other.containers := mem_dkeys_of_dlookup _ _ _ hoc
    have h := (merge_foldl_at true other.containers (self, other) k
      (by simpa [dkeys] using hnd) (by simpa [dkeys] using hk)).1
    rw [FC.merge, h, mergeStep_fst_self]
    simp [hsc, hoc]
  · simp only [childUpd, FC.fields_setRecipes, FC.fields_setFields]
    exact dlookup_dupdate_mem sc.fields oc.fields f v hndf hv

/-- Witness for `merge_overwrite_arg_wins` on the concrete merge pair. -/
theorem merge_overwrite_arg_wins_witness :
    dlookup (FC.merge mergeY mergeX true).1.containers "g"
      = some (childUpd (.mk [] [("a", [2])] [] []) (.mk [] [("a", [1])] [] [])) ∧
    dlookup (childUpd (.mk [] [("a", [2])] [] [])
      (.mk [] [("a", [1])] [] [])).fields "a" = some [1] :=
  merge_overwrite_arg_wins mergeY mergeX "g" "a"
    (.mk [] [("a", [2])] [] []) (.mk [] [("a", [1])] [] []) [1]
    (by decide) (by decide) rfl rfl rfl

/-! ### Claim C9: merge without overwrite mutates the argument -/

/-- Claim C9: `merge(other, overwrite=False)` mutates the argument rather
than the receiver.  Self's existing children are left untouched; self
gains only freshly created empty children for names it lacked; and every
child of `other` receives the fields and recipes of self's corresponding
child (or of a fresh empty one) applied on top of its own. -/
theorem merge_noover_mutates_arg (self other : FC)
    (hnd : (dkeys other.containers).Nodup) :
    (∀ k sc, dlookup self.containers k = some sc →
        dlookup (FC.merge self other false).1.containers k = some sc) ∧
    (∀ k, k ∈ dkeys other.containers → dmem self.containers k = false →
        dlookup (FC.merge self other false).1.containers k = some emptyFC) ∧
    (∀ k oc, dlookup other.containers k = some oc →
        dlookup (FC.merge self other false).2.containers k
          = some (childUpd oc ((dlookup self.containers k).getD emptyFC))) := by
  refine ⟨?_, ?_, ?_⟩
  · intro k sc hsc
    by_cases hk : k ∈ dkeys other.containers
    · have h := (merge_foldl_at false other.containers (self, other) k
        (by simpa [dkeys] using hnd) (by simpa [dkeys] using hk)).1
      rw [FC.merge, h, mergeStep_fst_self]
      simp [hsc]
    · have h := (merge_foldl_untouched false other.containers (self, other) k
        (by simpa [dkeys] using hk)).1
      rw [FC.merge, h]
      exact hsc
  · intro k hk hmem
    have hnone : dlookup self.containers k = none := by
      cases h2 : dlookup self.containers k with
      | none => rfl
      | some sc => simp [dmem, h2] at hmem
    have h := (merge_foldl_at false other.containers (self, other) k
      (by simpa [dkeys] using hnd) (by simpa [dkeys] using hk)).1
    rw [FC.merge, h, mergeStep_fst_self]
    simp [hnone]
  · intro k oc hoc
    have hk : k ∈ dkeys other.containers := mem_dkeys_of_dlookup _ _ _ hoc
    have h := (merge_foldl_at false other.containers (self, other) k
      (by simpa [dkeys] using hnd) (by simpa [dkeys] using hk)).2
    rw [FC.merge, h, mergeStep_snd_self]
    simp [hoc]

/-- Witness for `merge_noover_mutates_arg` on the concrete merge pair:
self's (`mergeY`'s) child keeps `"a"=[2]`; the argument's (`mergeX`'s)
child becomes its own entries with self's applied on top. -/
theorem merge_noover_mutates_arg_witness :
    dlookup (FC.merge mergeY mergeX false).1.containers "g"
      = some (.mk [] [("a", [2])] [] []) ∧
    dlookup (FC.merge mergeY mergeX false).2.containers "g"
      = some (childUpd (.mk [] [("a", [1])] [] [])
          ((dlookup mergeY.containers "g").getD emptyFC)) :=
  ⟨(merge_noover_mutates_arg mergeY mergeX (by decide)).1 "g"
      (.mk [] [("a", [2])] [] []) rfl,
   (merge_noover_mutates_arg mergeY mergeX (by decide)).2.2 "g"
      (.mk [] [("a", [1])] [] []) rfl⟩

end Astrodask
